import Mathlib

/-!
Verification of the SDG Classification & Aggregation Engine of `makeit.py`.

The engine consists of:
* the constant keyword table `SDG_KEYWORDS`;
* `map_snippet_to_sdgs`, which matches lowercase keywords as substrings of
  the lowercased input text;
* `analyze_sentiment`, which thresholds a polarity score produced by an
  external lexicon-based scorer (TextBlob) into a label;
* the aggregation loop of `main` (a per-category tally over an
  insertion-ordered dictionary of counts) and the article filter of `main`
  (a list comprehension over category and sentiment predicates).

Text is modelled as `List Char`; Python's `str.lower` becomes
`List.map Char.toLower` and Python's substring operator `in` becomes the
executable `containsSub`.  The external sentiment scorer is modelled as an
explicit fallible parameter `scorer : List Char → Option (ℚ × ℚ)` standing
for TextBlob's polarity and subjectivity pair; `none` models the scorer
raising an exception, which the source, having no `try/except` in
`analyze_sentiment`, propagates.  Polarity and subjectivity are modelled as
rationals, `0.2` being exactly `1/5`.
-/

namespace OPAElastic

/-- One entry of the keyword table: a display name, the ordered list of
trigger keywords, and a display color (presentation-only). -/
structure SDGEntry where
  name : String
  keywords : List String
  color : String
deriving DecidableEq, Repr

/-- The constant keyword table `SDG_KEYWORDS` of `makeit.py`, transcribed
entry by entry in source order. -/
def SDG_KEYWORDS : List SDGEntry := [
  ⟨"No Poverty (SDG1)", ["poverty", "financial inclusion", "poverty reduction"], "#e5243b"⟩,
  ⟨"Good Health and Well-being (SDG3)", ["health", "wellbeing", "mental health", "healthcare"], "#4c9f38"⟩,
  ⟨"Gender Equality (SDG5)", ["gender equality", "women empowerment", "diversity", "inclusion"], "#ff3a21"⟩,
  ⟨"Affordable and Clean Energy (SDG7)", ["clean energy", "renewable", "solar", "wind", "energy efficiency"], "#fcc30b"⟩,
  ⟨"Decent Work and Economic Growth (SDG8)", ["economic growth", "jobs", "employment", "decent work"], "#a21942"⟩,
  ⟨"Industry, Innovation and Infrastructure (SDG9)", ["innovation", "infrastructure", "technology", "industry"], "#fd6925"⟩,
  ⟨"Reduced Inequalities (SDG10)", ["inequality", "equal opportunity", "inclusion", "fairness"], "#dd1367"⟩,
  ⟨"Sustainable Cities and Communities (SDG11)", ["sustainable cities", "urban", "communities", "housing"], "#fd9d24"⟩,
  ⟨"Responsible Consumption and Production (SDG12)", ["sustainable consumption", "waste", "recycling", "circular economy"], "#bf8b2e"⟩,
  ⟨"Climate Action (SDG13)", ["climate change", "carbon emissions", "climate action", "global warming"], "#3f7e44"⟩,
  ⟨"Life Below Water (SDG14)", ["marine", "oceans", "water pollution", "marine life"], "#0a97d9"⟩,
  ⟨"Life on Land (SDG15)", ["biodiversity", "forests", "land", "wildlife", "ecosystem"], "#56c02b"⟩,
  ⟨"Peace, Justice and Strong Institutions (SDG16)", ["peace", "justice", "strong institutions", "governance"], "#00689d"⟩,
  ⟨"Partnerships for the Goals (SDG17)", ["partnership", "collaboration", "sdg goals", "sustainable development goals"], "#19486a"⟩]

/-- Model of Python's `str.lower`, character by character. -/
def lower (t : List Char) : List Char := t.map Char.toLower

/-- `startsWith t k` holds when `k` is an initial segment of `t`. -/
def startsWith : List Char → List Char → Bool
  | _, [] => true
  | [], _ :: _ => false
  | c :: t, k :: ks => c == k && startsWith t ks

/-- Model of Python's substring operator: `containsSub t k` holds when `k`
occurs contiguously somewhere inside `t`. -/
def containsSub : List Char → List Char → Bool
  | [], k => k.isEmpty
  | c :: t, k => startsWith (c :: t) k || containsSub t k

/-- The per-entry test of `map_snippet_to_sdgs`: does ANY keyword of the
entry occur in the lowercased text? -/
def matchesEntry (e : SDGEntry) (t : List Char) : Bool :=
  e.keywords.any (fun kw => containsSub (lower t) kw.toList)

/-- `map_snippet_to_sdgs` of `makeit.py`: iterate the table in order and
collect the names of all entries with a matching keyword.  The source
returns `list(matched_sdgs)` where `matched_sdgs` is a set; we represent
that set canonically as the sublist of table names that matched, which has
exactly the same members. -/
def map_snippet_to_sdgs (t : List Char) : List String :=
  (SDG_KEYWORDS.filter (fun e => matchesEntry e t)).map (fun e => e.name)

/-- The record returned by `analyze_sentiment`. -/
structure SentimentResult where
  sentiment : String
  polarity : ℚ
  subjectivity : ℚ
deriving DecidableEq, Repr

/-- The threshold cascade of `analyze_sentiment`:
polarity above `0.2` gives `"Positive"`, polarity below `-0.2` gives
`"Negative"`, otherwise `"Neutral"`. -/
def sentimentLabel (polarity : ℚ) : String :=
  if polarity > 1/5 then "Positive"
  else if polarity < -(1/5) then "Negative"
  else "Neutral"

/-- `analyze_sentiment` of `makeit.py`, parametrised by the external
scorer (TextBlob).  A scorer failure (`none`) propagates: the source has
no `try/except` in this function. -/
def analyze_sentiment (scorer : List Char → Option (ℚ × ℚ)) (text : List Char) :
    Option SentimentResult :=
  match scorer text with
  | none => none
  | some (p, s) => some ⟨sentimentLabel p, p, s⟩

/-- A classified article as the filter and aggregation code of `main` sees
it: its matched-category names and its sentiment label. -/
structure Article where
  sdgs : List String
  sentiment : String
deriving DecidableEq, Repr

/-- The article filter of `main`: keep articles that pass both the
category test (selected set empty, or some selected category among the
article's matches) and the sentiment test (filter is the `"All"` choice,
or the article's label equals the chosen one). -/
def filtered_articles (articles : List Article) (selected_sdgs : List String)
    (sentiment_filter : String) : List Article :=
  articles.filter (fun art =>
    (selected_sdgs.isEmpty || selected_sdgs.any (fun sdg => art.sdgs.contains sdg)) &&
    (sentiment_filter == "All" || art.sentiment == sentiment_filter))

/-- One `sdg_counts[sdg] += 1` step on an insertion-ordered association
list, the model of a Python `defaultdict(int)` update. -/
def bump : List (String × Nat) → String → List (String × Nat)
  | [], k => [(k, 1)]
  | (k', v) :: rest, k =>
    if k' = k then (k', v + 1) :: rest else (k', v) :: bump rest k

/-- The aggregation loop of `main`: for each article, for each matched
category, increment its count, starting from an empty dictionary. -/
def sdg_counts (articles : List Article) : List (String × Nat) :=
  articles.foldl (fun m art => art.sdgs.foldl bump m) []

/-- Key lookup in the association list — the mapping view of the dict. -/
def lookupC : List (String × Nat) → String → Option Nat
  | [], _ => none
  | (k', v) :: rest, k => if k' = k then some v else lookupC rest k

/-- The count a dict gives a key, absent keys counting 0. -/
def getC (m : List (String × Nat)) (k : String) : Nat := (lookupC m k).getD 0

/-- Phrased from the spec, for comparison with the source-derived filter:
an article passes when the selected set is empty OR intersects its
matched-category set, AND the sentiment choice is the all-pass one OR
equals its label. -/
def passes_filters (selected_sdgs : List String) (sentiment_filter : String)
    (art : Article) : Prop :=
  (selected_sdgs = [] ∨ ∃ c ∈ selected_sdgs, c ∈ art.sdgs) ∧
  (sentiment_filter = "All" ∨ art.sentiment = sentiment_filter)

/-! ### Helper lemmas -/

lemma startsWith_iff (k t : List Char) : startsWith t k = true ↔ ∃ u, k ++ u = t := by
  induction k generalizing t with
  | nil => simp [startsWith]
  | cons kh kt ih =>
    cases t with
    | nil => simp [startsWith]
    | cons c t' =>
      simp only [startsWith, Bool.and_eq_true, beq_iff_eq, ih, List.cons_append,
        List.cons.injEq]
      constructor
      · rintro ⟨rfl, u, rfl⟩
        exact ⟨u, rfl, rfl⟩
      · rintro ⟨u, rfl, rfl⟩
        exact ⟨rfl, u, rfl⟩

lemma containsSub_iff (k t : List Char) :
    containsSub t k = true ↔ ∃ s u, s ++ k ++ u = t := by
  induction t with
  | nil =>
    simp only [containsSub, List.isEmpty_iff, List.append_eq_nil]
    constructor
    · rintro rfl
      exact ⟨[], [], ⟨rfl, rfl⟩, rfl⟩
    · rintro ⟨s, u, ⟨hs, hk⟩, hu⟩
      exact hk
  | cons c t' ih =>
    simp only [containsSub, Bool.or_eq_true, startsWith_iff, ih]
    constructor
    · rintro (⟨u, hu⟩ | ⟨s, u, rfl⟩)
      · exact ⟨[], u, by simpa using hu⟩
      · exact ⟨c :: s, u, rfl⟩
    · rintro ⟨s, u, hs⟩
      cases s with
      | nil => exact Or.inl ⟨u, by simpa using hs⟩
      | cons c' s' =>
        simp only [List.cons_append, List.cons.injEq] at hs
        exact Or.inr ⟨s', u, hs.2⟩

lemma nodup_names : (SDG_KEYWORDS.map (fun e => e.name)).Nodup := by decide

lemma name_mem_iff (t : List Char) (e : SDGEntry) (he : e ∈ SDG_KEYWORDS) :
    e.name ∈ map_snippet_to_sdgs t ↔ matchesEntry e t = true := by
  simp only [map_snippet_to_sdgs]
  constructor
  · intro h
    rcases List.mem_map.1 h with ⟨e', he', hname⟩
    rcases List.mem_filter.1 he' with ⟨hmem, hmatch⟩
    have he'e : e' = e := List.inj_on_of_nodup_map nodup_names hmem he hname
    exact he'e ▸ hmatch
  · intro h
    exact List.mem_map.2 ⟨e, List.mem_filter.2 ⟨he, h⟩, rfl⟩

lemma matchesEntry_iff (e : SDGEntry) (t : List Char) :
    matchesEntry e t = true ↔
      ∃ kw ∈ e.keywords, ∃ s u, s ++ kw.toList ++ u = lower t := by
  simp only [matchesEntry, List.any_eq_true, containsSub_iff]

lemma lookupC_bump_self (m : List (String × Nat)) (k : String) :
    lookupC (bump m k) k = some (getC m k + 1) := by
  induction m with
  | nil => simp [bump, lookupC, getC]
  | cons kv rest ih =>
    obtain ⟨k', v⟩ := kv
    by_cases h : k' = k
    · subst h
      simp [bump, lookupC, getC]
    · simp [bump, lookupC, h, ih, getC]

lemma lookupC_bump_ne (m : List (String × Nat)) (k k' : String) (h : k' ≠ k) :
    lookupC (bump m k) k' = lookupC m k' := by
  have hks : ¬ (k = k') := fun hh => h hh.symm
  induction m with
  | nil => simp [bump, lookupC, hks]
  | cons kv rest ih =>
    obtain ⟨k'', v⟩ := kv
    by_cases hk : k'' = k
    · subst hk
      simp [bump, lookupC, hks]
    · simp [bump, lookupC, hk, ih]

lemma getC_bump_self (m : List (String × Nat)) (k : String) :
    getC (bump m k) k = getC m k + 1 := by
  simp [getC, lookupC_bump_self]

lemma getC_bump_ne (m : List (String × Nat)) (k k' : String) (h : k' ≠ k) :
    getC (bump m k) k' = getC m k' := by
  simp [getC, lookupC_bump_ne m k k' h]

lemma lookupC_foldl_bump (ks : List String) (m : List (String × Nat)) (c : String) :
    lookupC (ks.foldl bump m) c =
      if ks.count c = 0 then lookupC m c else some (getC m c + ks.count c) := by
  induction ks generalizing m with
  | nil => simp
  | cons a ks ih =>
    rw [List.foldl_cons, ih]
    by_cases h : a = c
    · subst h
      rw [List.count_cons_self]
      by_cases h0 : ks.count a = 0
      · simp [h0, lookupC_bump_self, getC_bump_self]
      · rw [if_neg h0, if_neg (by omega : ¬ (ks.count a + 1 = 0)), getC_bump_self]
        congr 1
        omega
    · have hca : c ≠ a := fun hh => h hh.symm
      rw [List.count_cons_of_ne hca]
      by_cases h0 : ks.count c = 0 <;>
        simp [h0, lookupC_bump_ne m a c hca, getC_bump_ne m a c hca]

lemma lookupC_sdg_counts_aux (arts : List Article) (m : List (String × Nat)) (c : String) :
    lookupC (arts.foldl (fun acc art => art.sdgs.foldl bump acc) m) c =
      if (arts.map (fun a => a.sdgs.count c)).sum = 0 then lookupC m c
      else some (getC m c + (arts.map (fun a => a.sdgs.count c)).sum) := by
  induction arts generalizing m with
  | nil => simp
  | cons a arts ih =>
    rw [List.foldl_cons, ih, List.map_cons, List.sum_cons]
    have hL : lookupC (a.sdgs.foldl bump m) c =
        if a.sdgs.count c = 0 then lookupC m c else some (getC m c + a.sdgs.count c) :=
      lookupC_foldl_bump a.sdgs m c
    have hG : getC (a.sdgs.foldl bump m) c = getC m c + a.sdgs.count c := by
      rw [getC, hL]
      by_cases h1 : a.sdgs.count c = 0
      · simp [h1, getC]
      · simp [h1]
    by_cases h1 : a.sdgs.count c = 0
    · by_cases h2 : (arts.map (fun a => a.sdgs.count c)).sum = 0
      · simp [h1, h2, hL]
      · simp [h1, h2, hL, hG]
    · by_cases h2 : (arts.map (fun a => a.sdgs.count c)).sum = 0
      · simp [h1, h2, hL, hG]
      · have hsum : ¬ (a.sdgs.count c + (arts.map (fun a => a.sdgs.count c)).sum = 0) := by
          omega
        simp only [h2, ite_false, hsum, hG, Option.some.injEq]
        omega

lemma lookupC_sdg_counts (arts : List Article) (c : String) :
    lookupC (sdg_counts arts) c =
      if (arts.map (fun a => a.sdgs.count c)).sum = 0 then none
      else some ((arts.map (fun a => a.sdgs.count c)).sum) := by
  rw [sdg_counts, lookupC_sdg_counts_aux]
  simp [lookupC, getC]

lemma count_of_nodup (l : List String) (h : l.Nodup) (c : String) :
    l.count c = if c ∈ l then 1 else 0 := by
  by_cases hc : c ∈ l
  · rw [if_pos hc]
    exact List.count_eq_one_of_mem h hc
  · rw [if_neg hc]
    exact List.count_eq_zero_of_not_mem hc

lemma sum_counts_eq_countP (arts : List Article) (c : String)
    (h : ∀ a ∈ arts, a.sdgs.Nodup) :
    (arts.map (fun a => a.sdgs.count c)).sum =
      arts.countP (fun a => decide (c ∈ a.sdgs)) := by
  induction arts with
  | nil => simp
  | cons a arts ih =>
    simp only [List.map_cons, List.sum_cons, List.countP_cons]
    rw [ih (fun x hx => h x (List.mem_cons_of_mem a hx)),
      count_of_nodup a.sdgs (h a (List.mem_cons_self a arts)) c]
    by_cases hc : c ∈ a.sdgs
    · simp [hc]
      all_goals omega
    · simp [hc]

/-! ### Claim theorems -/

/-- C1: for every input, classification labels the computed polarity
`"Positive"` exactly when it exceeds `0.2`, `"Negative"` exactly when it is
below `-0.2`, and `"Neutral"` otherwise; polarity `0.21` gives Positive,
`0.20` Neutral, `-0.21` Negative and `-0.20` Neutral — the boundaries are
exclusive. -/
theorem analyze_sentiment_threshold_spec :
    (∀ (scorer : List Char → Option (ℚ × ℚ)) (t : List Char) (p s : ℚ),
        scorer t = some (p, s) →
        analyze_sentiment scorer t = some ⟨sentimentLabel p, p, s⟩) ∧
    (∀ p : ℚ,
        ((sentimentLabel p = "Positive") ↔ 1/5 < p) ∧
        ((sentimentLabel p = "Negative") ↔ p < -(1/5)) ∧
        ((sentimentLabel p = "Neutral") ↔ (p ≤ 1/5 ∧ -(1/5) ≤ p))) ∧
    sentimentLabel (21/100) = "Positive" ∧
    sentimentLabel (1/5) = "Neutral" ∧
    sentimentLabel (-(21/100)) = "Negative" ∧
    sentimentLabel (-(1/5)) = "Neutral" := by
  refine ⟨?_, ?_, ?_, ?_, ?_, ?_⟩
  · intro scorer t p s h
    simp [analyze_sentiment, h]
  · intro p
    unfold sentimentLabel
    split_ifs with h1 h2
    · exact ⟨⟨fun _ => h1, fun _ => rfl⟩,
             ⟨fun hs => absurd hs (by decide), fun hp => absurd hp (by linarith)⟩,
             ⟨fun hs => absurd hs (by decide), fun hp => absurd h1 (not_lt.2 hp.1)⟩⟩
    · exact ⟨⟨fun hs => absurd hs (by decide), fun hp => absurd hp h1⟩,
             ⟨fun _ => h2, fun _ => rfl⟩,
             ⟨fun hs => absurd hs (by decide), fun hp => absurd h2 (not_lt.2 hp.2)⟩⟩
    · push_neg at h1 h2
      exact ⟨⟨fun hs => absurd hs (by decide), fun hp => absurd hp (not_lt.2 h1)⟩,
             ⟨fun hs => absurd hs (by decide), fun hp => absurd hp (not_lt.2 h2)⟩,
             ⟨fun _ => ⟨h1, h2⟩, fun _ => rfl⟩⟩
  · norm_num [sentimentLabel]
  · norm_num [sentimentLabel]
  · norm_num [sentimentLabel]
  · norm_num [sentimentLabel]

/-- Witness for C1: a concrete scorer returning polarity one half yields a
Positive result. -/
theorem analyze_sentiment_threshold_spec_witness :
    analyze_sentiment (fun _ => some (1/2, 1/3)) [] = some ⟨"Positive", 1/2, 1/3⟩ := by
  have h := analyze_sentiment_threshold_spec.1 (fun _ => some (1/2, 1/3)) [] (1/2) (1/3) rfl
  rw [h]
  norm_num [sentimentLabel]

/-- C2: a category of the table is matched by a text exactly when one of
its keywords occurs as a substring of the lowercased text; a text matching
no keyword yields the empty category set; and matching is substring-based,
the keyword of SDG3 firing inside the word healthcare. -/
theorem map_snippet_matches_keywords :
    (∀ (t : List Char) (e : SDGEntry), e ∈ SDG_KEYWORDS →
        (e.name ∈ map_snippet_to_sdgs t ↔
          ∃ kw ∈ e.keywords, ∃ s u, s ++ kw.toList ++ u = lower t)) ∧
    (∀ t : List Char,
        (∀ e ∈ SDG_KEYWORDS, ∀ kw ∈ e.keywords,
            containsSub (lower t) kw.toList = false) →
        map_snippet_to_sdgs t = []) ∧
    "Good Health and Well-being (SDG3)" ∈ map_snippet_to_sdgs ("healthcare".toList) := by
  refine ⟨?_, ?_, ?_⟩
  · intro t e he
    rw [name_mem_iff t e he, matchesEntry_iff]
  · intro t h
    simp only [map_snippet_to_sdgs, List.map_eq_nil_iff, List.filter_eq_nil_iff]
    intro e he hm
    rcases List.any_eq_true.1 hm with ⟨kw, hkw, hc⟩
    rw [h e he kw hkw] at hc
    exact Bool.false_ne_true hc
  · decide

/-- Witness for C2: the SDG7 keyword for solar energy fires on a concrete
text containing it. -/
theorem map_snippet_matches_keywords_witness :
    "Affordable and Clean Energy (SDG7)" ∈ map_snippet_to_sdgs ("Solar power".toList) := by
  have h := map_snippet_matches_keywords.1 ("Solar power".toList)
    ⟨"Affordable and Clean Energy (SDG7)",
     ["clean energy", "renewable", "solar", "wind", "energy efficiency"], "#fcc30b"⟩
    (by decide)
  exact h.2 ⟨"solar", by decide, [], (" power".toList), by decide⟩

/-- C3 counterexample: the keyword table has 14 entries, not the 17 the
claim states. -/
theorem sdg_table_not_seventeen : SDG_KEYWORDS.length ≠ 17 := by decide

/-- C3 (amended): the keyword table is a fixed registry of exactly 14
categories with pairwise distinct display names, each carrying a nonempty
ordered list of keywords all already lowercase (and a display color); it
is a constant definition, never mutated. -/
theorem sdg_table_fixed_registry :
    SDG_KEYWORDS.length = 14 ∧
    (SDG_KEYWORDS.map (fun e => e.name)).Nodup ∧
    SDG_KEYWORDS.all (fun e => !e.keywords.isEmpty &&
      e.keywords.all (fun kw => kw.toList.map Char.toLower == kw.toList)) = true :=
  ⟨by decide, nodup_names, by decide⟩

/-- C4 counterexample: when the underlying scorer fails, classification
does NOT substitute the Neutral default with zero scores — the failure
propagates, because `analyze_sentiment` has no error handler. -/
theorem analyze_sentiment_propagates_failure :
    analyze_sentiment (fun _ => none) [] = none ∧
    ¬ (analyze_sentiment (fun _ => none) [] =
        some { sentiment := "Neutral", polarity := 0, subjectivity := 0 }) := by
  refine ⟨rfl, ?_⟩
  simp [analyze_sentiment]

/-- C4 (amended): classification succeeds on every input on which the
scorer succeeds; the empty string yields an empty category set and, when
the scorer returns zero scores for it, the Neutral result with zero
polarity and subjectivity; but a scorer failure propagates instead of
being replaced by that default. -/
theorem classification_total_on_scorer_success :
    (∀ (scorer : List Char → Option (ℚ × ℚ)) (t : List Char) (p s : ℚ),
        scorer t = some (p, s) → ∃ r, analyze_sentiment scorer t = some r) ∧
    (∀ scorer : List Char → Option (ℚ × ℚ), scorer [] = some (0, 0) →
        analyze_sentiment scorer [] =
          some { sentiment := "Neutral", polarity := 0, subjectivity := 0 }) ∧
    map_snippet_to_sdgs [] = [] ∧
    (∀ (scorer : List Char → Option (ℚ × ℚ)) (t : List Char),
        scorer t = none → analyze_sentiment scorer t = none) := by
  refine ⟨?_, ?_, by decide, ?_⟩
  · intro scorer t p s h
    exact ⟨⟨sentimentLabel p, p, s⟩, by simp [analyze_sentiment, h]⟩
  · intro scorer h
    simp only [analyze_sentiment, h]
    norm_num [sentimentLabel]
  · intro scorer t h
    simp [analyze_sentiment, h]

/-- Witness for C4 (amended): a scorer returning zero scores on the empty
text yields the Neutral result. -/
theorem classification_total_on_scorer_success_witness :
    analyze_sentiment (fun _ => some (0, 0)) [] =
      some { sentiment := "Neutral", polarity := 0, subjectivity := 0 } :=
  classification_total_on_scorer_success.2.1 (fun _ => some (0, 0)) rfl

/-- C5: the filter returns an order-preserving subsequence of its input
containing exactly the articles that pass both the category filter (empty
selection means all, otherwise nonempty intersection) and the sentiment
filter (the all-pass choice or an equal label). -/
theorem filtered_articles_spec :
    ∀ (arts : List Article) (sel : List String) (sent : String),
    (filtered_articles arts sel sent).Sublist arts ∧
    ∀ a : Article, a ∈ filtered_articles arts sel sent ↔
      a ∈ arts ∧ passes_filters sel sent a := by
  intro arts sel sent
  refine ⟨List.filter_sublist arts, fun a => ?_⟩
  rw [filtered_articles, List.mem_filter]
  simp [passes_filters, List.isEmpty_iff, List.any_eq_true, List.contains,
    List.elem_eq_mem]

/-- C6: the aggregate maps each category present in some article to the
number of articles whose (duplicate-free) matched-category set contains
it, and omits categories matched by no article. -/
theorem sdg_counts_spec : ∀ (arts : List Article) (c : String),
    (∀ a ∈ arts, a.sdgs.Nodup) →
    lookupC (sdg_counts arts) c =
      if arts.countP (fun a => decide (c ∈ a.sdgs)) = 0 then none
      else some (arts.countP (fun a => decide (c ∈ a.sdgs))) := by
  intro arts c h
  rw [lookupC_sdg_counts, sum_counts_eq_countP arts c h]

/-- Witness for C6: two concrete articles give count 2 for a shared
category and no entry for an unmatched one. -/
theorem sdg_counts_spec_witness :
    lookupC (sdg_counts [⟨["A", "B"], "Positive"⟩, ⟨["B"], "Neutral"⟩]) "B" = some 2 ∧
    lookupC (sdg_counts [⟨["A", "B"], "Positive"⟩, ⟨["B"], "Neutral"⟩]) "C" = none := by
  constructor
  · rw [sdg_counts_spec [⟨["A", "B"], "Positive"⟩, ⟨["B"], "Neutral"⟩] ("B") (by decide)]
    decide
  · rw [sdg_counts_spec [⟨["A", "B"], "Positive"⟩, ⟨["B"], "Neutral"⟩] ("C") (by decide)]
    decide

/-- C7: aggregation is order-independent — permuting the article
collection leaves the category-to-count mapping unchanged. -/
theorem sdg_counts_perm_invariant : ∀ (arts arts' : List Article),
    arts.Perm arts' →
    ∀ c : String, lookupC (sdg_counts arts) c = lookupC (sdg_counts arts') c := by
  intro arts arts' hp c
  rw [lookupC_sdg_counts, lookupC_sdg_counts,
    (hp.map (fun a => a.sdgs.count c)).sum_eq]

/-- Witness for C7: swapping two concrete articles leaves the count of a
category unchanged. -/
theorem sdg_counts_perm_invariant_witness :
    lookupC (sdg_counts [⟨["A"], "Positive"⟩, ⟨["B"], "Neutral"⟩]) "A" =
      lookupC (sdg_counts [⟨["B"], "Neutral"⟩, ⟨["A"], "Positive"⟩]) "A" :=
  sdg_counts_perm_invariant _ _ (List.Perm.swap _ _ _) ("A")

/-- C8: the filter is idempotent under repetition with the same arguments
and is the identity when the selected set is empty and the sentiment
choice is the all-pass one. -/
theorem filtered_articles_idempotent :
    (∀ (arts : List Article) (sel : List String) (sent : String),
        filtered_articles (filtered_articles arts sel sent) sel sent =
          filtered_articles arts sel sent) ∧
    (∀ arts : List Article, filtered_articles arts [] "All" = arts) := by
  constructor
  · intro arts sel sent
    simp only [filtered_articles, List.filter_filter]
    exact List.filter_congr fun x _ => Bool.and_self _
  · intro arts
    simp [filtered_articles]

/-- C9: classification is deterministic — it is a pure function of the
input text (and the constant keyword table): equal texts always receive
equal matched-category sets and equal sentiment results. -/
theorem classification_deterministic :
    ∀ (scorer : List Char → Option (ℚ × ℚ)) (t u : List Char), t = u →
      map_snippet_to_sdgs t = map_snippet_to_sdgs u ∧
        analyze_sentiment scorer t = analyze_sentiment scorer u := by
  rintro scorer t u rfl
  exact ⟨rfl, rfl⟩

/-- Witness for C9: two calls on the same concrete text agree. -/
theorem classification_deterministic_witness :
    map_snippet_to_sdgs ("solar".toList) = map_snippet_to_sdgs ("solar".toList) ∧
      analyze_sentiment (fun _ => some (0, 0)) ("solar".toList) =
        analyze_sentiment (fun _ => some (0, 0)) ("solar".toList) :=
  classification_deterministic (fun _ => some (0, 0)) ("solar".toList) ("solar".toList) rfl

/-- C10: the keyword for inclusion is registered under both SDG5 and
SDG10, and any text containing it (after lowercasing) is assigned both
categories. -/
theorem shared_keyword_both_categories : ∀ t : List Char,
    containsSub (lower t) ("inclusion".toList) = true →
    "Gender Equality (SDG5)" ∈ map_snippet_to_sdgs t ∧
    "Reduced Inequalities (SDG10)" ∈ map_snippet_to_sdgs t ∧
    (∃ e ∈ SDG_KEYWORDS, e.name = "Gender Equality (SDG5)" ∧ "inclusion" ∈ e.keywords) ∧
    (∃ e ∈ SDG_KEYWORDS, e.name = "Reduced Inequalities (SDG10)" ∧ "inclusion" ∈ e.keywords) := by
  intro t h
  refine ⟨?_, ?_, by decide, by decide⟩
  · exact (name_mem_iff t
      ⟨"Gender Equality (SDG5)",
       ["gender equality", "women empowerment", "diversity", "inclusion"], "#ff3a21"⟩
      (by decide)).2 (List.any_eq_true.2 ⟨"inclusion", by decide, h⟩)
  · exact (name_mem_iff t
      ⟨"Reduced Inequalities (SDG10)",
       ["inequality", "equal opportunity", "inclusion", "fairness"], "#dd1367"⟩
      (by decide)).2 (List.any_eq_true.2 ⟨"inclusion", by decide, h⟩)

/-- Witness for C10: a concrete text containing the shared keyword (in
mixed case) is assigned both SDG5 and SDG10. -/
theorem shared_keyword_both_categories_witness :
    "Gender Equality (SDG5)" ∈ map_snippet_to_sdgs ("Social Inclusion efforts".toList) ∧
    "Reduced Inequalities (SDG10)" ∈ map_snippet_to_sdgs ("Social Inclusion efforts".toList) :=
  ⟨(shared_keyword_both_categories ("Social Inclusion efforts".toList) (by decide)).1,
   (shared_keyword_both_categories ("Social Inclusion efforts".toList) (by decide)).2.1⟩

end OPAElastic
